import Mathlib

/-!
Verification of the expense-tracker application core (src/app/page.tsx).

The source is a React component; the logic verified here is the set of pure
transformations and state transitions it contains: persistence load with
legacy migration, wallet management, transaction form submission, period
filtering, aggregation (stats, monthly series, calendar grid), and
time navigation.

Modelling conventions:
- JS numbers carrying monetary amounts are modelled as exact rationals
  (the spec treats internal sums as exact on the numeric domain used).
- A transaction date is stored in the source as a YYYY-MM-DD string and
  re-parsed with the Date constructor at every use; it is modelled here as
  its calendar triple (year, 0-based month as in the JS getMonth accessor,
  1-based day as in getDate).
- Fresh identifiers produced by the randomUUID generator are passed in as
  explicit parameters.
-/

namespace ExpenseTracker

/-- The two-valued transaction type tag, source line 35. -/
inductive TxType where
  | income
  | expense
deriving DecidableEq, Repr

/-- The two view modes, source line 36. -/
inductive ViewMode where
  | daily
  | monthly
deriving DecidableEq, Repr

/-- A calendar date as the JS accessors expose it: getFullYear, getMonth
(0-based), getDate (1-based). -/
structure Date where
  year : Int
  month : Nat
  day : Nat
deriving DecidableEq, Repr

/-- Transaction record, source lines 38-45. The amount is a rational
standing for the JS number; the date string is modelled by its parsed
calendar triple. -/
structure Transaction where
  id : String
  description : String
  amount : Rat
  type : TxType
  date : Date
  category : String
deriving DecidableEq, Repr

/-- Wallet record, source lines 47-51. -/
structure WalletData where
  id : String
  name : String
  transactions : List Transaction
deriving DecidableEq, Repr

/-! ## Persistence load (source lines 93-127)

The stored value under the expense-tracker-data key is read once at
startup.  The save effects of the two versions of the application write
either a JSON array of wallets (each of which has a transactions field)
or, in the legacy version, a bare JSON array of transactions; the load
code distinguishes the two shapes by probing the first element for a
transactions field.  A stored value is therefore modelled as: absent,
unparsable (the JSON.parse call throws), a parsed non-array value, a
parsed array of wallet-shaped objects, or a parsed array of
transaction-shaped objects. -/

/-- Shape of a successfully parsed stored JSON value. -/
inductive StoredJson where
  | nonArray
  | walletArr (ws : List WalletData)
  | txnArr (ts : List Transaction)

/-- The raw stored value as seen by the load effect. -/
inductive Stored where
  | absent
  | unparsable
  | parsed (j : StoredJson)

/-- The load effect, source lines 96-122.  A present parsed array whose
first element has a transactions field is taken as the wallet collection;
otherwise the array is migrated into a single Main Wallet.  Missing or
unparsable data leaves the initial list empty, and an empty initial list
is replaced by a single empty Main Wallet.  fresh1 and fresh2 are the
identifiers minted by the randomUUID generator on the two paths that
create a wallet.  The function is total: no error propagates to the
caller. -/
def load (fresh1 fresh2 : String) (s : Stored) : List WalletData :=
  let initialWallets : List WalletData :=
    match s with
    | .absent => []
    | .unparsable => []
    | .parsed .nonArray => []
    | .parsed (.walletArr ws) =>
        if 0 < ws.length then ws
        else [{ id := fresh1, name := "Main Wallet", transactions := [] }]
    | .parsed (.txnArr ts) =>
        [{ id := fresh1, name := "Main Wallet", transactions := ts }]
  if initialWallets.isEmpty then
    [{ id := fresh2, name := "Main Wallet", transactions := [] }]
  else initialWallets

/-! ## Wallet-level application state and handlers -/

/-- The wallet-related part of the component state: the wallets list and
the active wallet id (source lines 66-67).  The remaining state variables
(view mode, anchor date, selected day, form draft) do not touch the
wallet collection and are modelled separately. -/
structure AppState where
  wallets : List WalletData
  activeWalletId : Option String
deriving DecidableEq, Repr

/-- State right after the load effect: wallets set to the load result and
the active id set to the id of the first loaded wallet (source lines
121-122; the load result is never empty). -/
def loadedState (fresh1 fresh2 : String) (s : Stored) : AppState :=
  { wallets := load fresh1 fresh2 s
    activeWalletId := (load fresh1 fresh2 s).head?.map fun w => w.id }

/-- handleCreateWallet, source lines 143-154: no-op when the name trims
to empty, otherwise appends a new empty wallet and makes it active.
freshId is the identifier minted by the randomUUID generator. -/
def handleCreateWallet (s : AppState) (newWalletName freshId : String) : AppState :=
  if newWalletName.trim = "" then s
  else
    { wallets := s.wallets ++ [{ id := freshId, name := newWalletName, transactions := [] }]
      activeWalletId := some freshId }

/-- handleDeleteWallet, source lines 156-165.  Returns the new state and
a flag recording whether the user-visible rejection alert was shown.
When only one wallet remains the call alerts and changes nothing.  The
confirm dialog is modelled by the confirmed parameter; declining changes
nothing.  In the source the new active id is read from the first element
of the post-removal array; the JS code would throw if that array were
empty (impossible while wallet ids are distinct), modelled here as
head-of-list. -/
def handleDeleteWallet (s : AppState) (walletId : String) (confirmed : Bool) :
    AppState × Bool :=
  if s.wallets.length ≤ 1 then (s, true)
  else if confirmed then
    let updatedWallets := s.wallets.filter fun w => w.id != walletId
    let newActive :=
      if s.activeWalletId = some walletId then updatedWallets.head?.map fun w => w.id
      else s.activeWalletId
    ({ wallets := updatedWallets, activeWalletId := newActive }, false)
  else (s, false)

/-- Switching the active wallet via the wallet selector (source line 342).
The selector only offers the ids of wallets currently in the collection. -/
def setActiveWallet (s : AppState) (walletId : String) : AppState :=
  { s with activeWalletId := some walletId }

/-! ## Transaction form submission (source lines 167-197) -/

/-- The transaction form draft.  The description is the raw text field.
The amount field is a number input (source lines 428-435): per the HTML
value-sanitization rules a number input holds the empty string whenever
its content is not a valid floating-point number, so the field is
modelled as the parsed value when present and none when empty or
non-numeric (parseFloat of a present value is the value itself).  The
date field is a date input, likewise empty when not a valid date. -/
structure FormState where
  description : String
  amount : Option Rat
  tdate : Option Date
  type : TxType
  category : String

/-- The constraints the form enforces at submission time (source lines
416-445: the description, amount and date inputs carry the required
attribute and the amount input carries min zero, so the browser blocks
submission unless the description is non-empty, the amount parses to a
non-negative number and the date is present). -/
def validForm (fs : FormState) : Prop :=
  fs.description ≠ "" ∧ (∃ a, fs.amount = some a ∧ 0 ≤ a) ∧ fs.tdate ≠ none

/-- The wallet-map step of handleSubmit, source lines 180-188: only the
wallet whose id equals the active id is rebuilt; when editing, the
transaction with the editing id is replaced by the payload, otherwise
the payload is appended. -/
def submitWallets (payload : Transaction) (editingId : Option String)
    (activeWalletId : String) (wallets : List WalletData) : List WalletData :=
  wallets.map fun w =>
    if w.id = activeWalletId then
      let updatedTransactions :=
        match editingId with
        | some eid => w.transactions.map fun t => if t.id = eid then payload else t
        | none => w.transactions ++ [payload]
      { w with transactions := updatedTransactions }
    else w

/-- handleSubmit, source lines 167-197.  The guard on line 169 rejects a
falsy description, amount, date or active wallet id; the payload reuses
the editing id when editing and a fresh id otherwise. -/
def handleSubmit (fs : FormState) (editingId : Option String) (freshId : String)
    (activeWalletId : Option String) (wallets : List WalletData) : List WalletData :=
  if fs.description = "" then wallets
  else
    match fs.amount, fs.tdate, activeWalletId with
    | some a, some d, some aid =>
        let payload : Transaction :=
          { id := match editingId with | some eid => eid | none => freshId
            description := fs.description
            amount := a
            type := fs.type
            date := d
            category := fs.category }
        submitWallets payload editingId aid wallets
    | _, _, _ => wallets

/-- The wallet-map step of handleDelete, source lines 210-215: the
active wallet keeps only the transactions whose id differs from the
deleted one; every other wallet is returned as-is. -/
def deleteWallets (txId : String) (activeWalletId : Option String)
    (wallets : List WalletData) : List WalletData :=
  wallets.map fun w =>
    if some w.id = activeWalletId then
      { w with transactions := w.transactions.filter fun t => t.id != txId }
    else w

/-- handleSubmit acting on the wallet-related state. -/
def submitState (s : AppState) (fs : FormState) (editingId : Option String)
    (freshId : String) : AppState :=
  { s with wallets := handleSubmit fs editingId freshId s.activeWalletId s.wallets }

/-- handleDelete, source lines 208-217, acting on the wallet-related
state; the confirm dialog is modelled by the confirmed parameter. -/
def deleteTxState (s : AppState) (txId : String) (confirmed : Bool) : AppState :=
  if confirmed then
    { s with wallets := deleteWallets txId s.activeWalletId s.wallets }
  else s

/-! ## Reachable wallet states

The wallet collection and active id are modified only by the load
effect and the handlers above.  The two id-minting transitions carry
the collision-freedom contract of the randomUUID generator as a
freshness hypothesis, and the loaded state carries it as distinctness
of the stored wallet ids (stored collections are the output of the
save effect, whose ids come from the same generator); the wallet
selector offers only ids of wallets in the collection. -/
inductive Reachable : AppState → Prop
  | loaded (fresh1 fresh2 : String) (s : Stored)
      (hids : ((load fresh1 fresh2 s).map fun w => w.id).Nodup) :
      Reachable (loadedState fresh1 fresh2 s)
  | createW (s : AppState) (name freshId : String) (h : Reachable s)
      (hfresh : freshId ∉ s.wallets.map fun w => w.id) :
      Reachable (handleCreateWallet s name freshId)
  | deleteW (s : AppState) (walletId : String) (confirmed : Bool) (h : Reachable s) :
      Reachable (handleDeleteWallet s walletId confirmed).1
  | selectW (s : AppState) (walletId : String) (h : Reachable s)
      (hmem : walletId ∈ s.wallets.map fun w => w.id) :
      Reachable (setActiveWallet s walletId)
  | submitT (s : AppState) (fs : FormState) (editingId : Option String)
      (freshId : String) (h : Reachable s) :
      Reachable (submitState s fs editingId freshId)
  | deleteT (s : AppState) (txId : String) (confirmed : Bool) (h : Reachable s) :
      Reachable (deleteTxState s txId confirmed)

/-- The wallet invariant together with the distinctness of wallet ids
that the collision-free id generator maintains. -/
def GoodState (s : AppState) : Prop :=
  s.wallets ≠ [] ∧ (∃ w ∈ s.wallets, s.activeWalletId = some w.id) ∧
    (s.wallets.map fun w => w.id).Nodup

/-! ## Period filter (source lines 243-257) -/

/-- filteredTransactions, source lines 243-250: in daily mode keep the
transactions of the same calendar year and month as the anchor, in
monthly mode those of the same year. -/
def filteredTransactions (transactions : List Transaction) (currentDate : Date)
    (viewMode : ViewMode) : List Transaction :=
  transactions.filter fun t =>
    let isSameYear := t.date.year == currentDate.year
    let isSameMonth := t.date.month == currentDate.month
    match viewMode with
    | .daily => isSameYear && isSameMonth
    | .monthly => isSameYear

/-- displayList, source lines 252-257: in daily mode with a selected day,
keep only the transactions of that day of month; otherwise the filtered
set itself. -/
def displayList (filtered : List Transaction) (viewMode : ViewMode)
    (selectedDay : Option Nat) : List Transaction :=
  match viewMode, selectedDay with
  | .daily, some d => filtered.filter fun t => t.date.day == d
  | _, _ => filtered

/-! ## Aggregator (source lines 259-299) -/

/-- Result of the stats computation, source line 266. -/
structure StatsResult where
  income : Rat
  expense : Rat
  balance : Rat
deriving DecidableEq, Repr

/-- stats, source lines 259-267: one pass over the filtered set adding
each amount to the income total when the type tag is income and to the
expense total otherwise; the balance is their difference. -/
def stats (filtered : List Transaction) : StatsResult :=
  let p : Rat × Rat :=
    filtered.foldl
      (fun acc t =>
        match t.type with
        | .income => (acc.1 + t.amount, acc.2)
        | .expense => (acc.1, acc.2 + t.amount))
      (0, 0)
  { income := p.1, expense := p.2, balance := p.1 - p.2 }

/-- One bucket of the yearly bar-chart series, source line 271. -/
structure MonthBucket where
  name : String
  income : Rat
  expense : Rat
deriving DecidableEq, Repr

/-- The fixed month labels, source line 272. -/
def monthNames : List String :=
  ["Jan", "Feb", "Mar", "Apr", "May", "Jun", "Jul", "Aug", "Sep", "Oct", "Nov", "Dec"]

/-- The data map seeded with one zero bucket per month index, source
line 273. -/
def initDataMap : Nat → MonthBucket :=
  fun i => { name := monthNames.getD i "", income := 0, expense := 0 }

/-- One step of the accumulation loop of source lines 274-280: the
bucket at the month index of the transaction date receives the amount
(the lookup guard skips indices outside the seeded map, which for a
parsed date means a month index below twelve). -/
def bumpBucket (m : Nat → MonthBucket) (t : Transaction) : Nat → MonthBucket :=
  if t.date.month < 12 then
    fun i =>
      if i = t.date.month then
        match t.type with
        | .income => { name := (m i).name, income := (m i).income + t.amount
                       expense := (m i).expense }
        | .expense => { name := (m i).name, income := (m i).income
                        expense := (m i).expense + t.amount }
      else m i
  else m

/-- monthlyChartData, source lines 269-282: empty in daily mode;
otherwise the twelve buckets of the accumulated map listed in ascending
month-index order (the order in which the JS object enumerates its
integer keys). -/
def monthlyChartData (filtered : List Transaction) (viewMode : ViewMode) :
    List MonthBucket :=
  match viewMode with
  | .daily => []
  | .monthly => (List.range 12).map (filtered.foldl bumpBucket initDataMap)

/-! ## Calendar arithmetic

The source obtains the number of days in the anchor month and the
weekday of its first day from the JS Date constructor (source lines
288-289); these are the Gregorian calendar functions, embedded below.
The weekday computation counts civil days from the epoch (a Thursday)
using the standard days-from-civil algorithm. -/

/-- Gregorian leap-year rule. -/
def isLeap (y : Int) : Bool := (y % 4 == 0 && y % 100 != 0) || y % 400 == 0

/-- Number of days in a month given the 0-based month index, as the
source computes with the day-zero-of-next-month trick on line 288. -/
def daysInMonth (y : Int) (m : Nat) : Nat :=
  match m with
  | 0 => 31
  | 1 => if isLeap y then 29 else 28
  | 2 => 31
  | 3 => 30
  | 4 => 31
  | 5 => 30
  | 6 => 31
  | 7 => 31
  | 8 => 30
  | 9 => 31
  | 10 => 30
  | 11 => 31
  | _ => 31

/-- Civil day count since 1970-01-01 for a date given with a 1-based
month. -/
def daysFromCivil (y : Int) (m : Nat) (d : Nat) : Int :=
  let y2 : Int := if m ≤ 2 then y - 1 else y
  let era : Int := y2 / 400
  let yoe : Int := y2 - era * 400
  let mp : Int := ((m : Int) + 9) % 12
  let doy : Int := (153 * mp + 2) / 5 + (d : Int) - 1
  let doe : Int := yoe * 365 + yoe / 4 - yoe / 100 + doy
  era * 146097 + doe - 719468

/-- Weekday index with Sunday as zero, as the JS getDay accessor
returns: the epoch day was a Thursday. -/
def weekday (dt : Date) : Nat :=
  ((daysFromCivil dt.year (dt.month + 1) dt.day + 4) % 7).toNat

/-- Weekday index of the first day of the given 0-based month, source
line 289. -/
def firstDayOfMonth (y : Int) (m : Nat) : Nat := weekday { year := y, month := m, day := 1 }

/-- One cell of the calendar grid, source lines 291 and 296. -/
structure DayCell where
  day : Option Nat
  income : Rat
  expense : Rat
deriving DecidableEq, Repr

/-- The cell built for day number i by the loop body of source lines
292-297: the transactions of that day of month, their income total and
their expense total. -/
def dayCellFor (filtered : List Transaction) (i : Nat) : DayCell :=
  let dayTransactions := filtered.filter fun t => t.date.day == i
  let dayIncome :=
    (dayTransactions.filter fun t => t.type == TxType.income).foldl
      (fun acc c => acc + c.amount) 0
  let dayExpense :=
    (dayTransactions.filter fun t => t.type == TxType.expense).foldl
      (fun acc c => acc + c.amount) 0
  { day := some i, income := dayIncome, expense := dayExpense }

/-- calendarData, source lines 284-299: null in monthly mode; in daily
mode one blank cell per weekday position before the first of the month
followed by one cell per day of the month. -/
def calendarData (filtered : List Transaction) (currentDate : Date)
    (viewMode : ViewMode) : Option (List DayCell) :=
  match viewMode with
  | .monthly => none
  | .daily =>
    let year := currentDate.year
    let month := currentDate.month
    let dim := daysInMonth year month
    let fdm := firstDayOfMonth year month
    some (List.replicate fdm { day := none, income := 0, expense := 0 } ++
      (List.range dim).map fun i => dayCellFor filtered (i + 1))

/-! ## Time navigation (source lines 226-235) -/

/-- View-control state: view mode, anchor date and selected day (source
lines 76-78). -/
structure ViewState where
  viewMode : ViewMode
  currentDate : Date
  selectedDay : Option Nat
deriving DecidableEq, Repr

/-- Navigation direction. -/
inductive Direction where
  | prev
  | next
deriving DecidableEq, Repr

/-- One carry pass of the JS Date normalization: while the day count
exceeds the month length, subtract the month length and move to the
following month.  The day count itself bounds the number of carries
(each one removes at least twenty-eight days), so it serves as
structural fuel; when the fuel is zero the day count is at most the
month length and the date is already normal. -/
def rollDayAux : Nat → Int → Nat → Nat → Date
  | 0, y, m, d => { year := y, month := m, day := d }
  | fuel + 1, y, m, d =>
      if d ≤ daysInMonth y m then { year := y, month := m, day := d }
      else
        let d2 := d - daysInMonth y m
        if m = 11 then rollDayAux fuel (y + 1) 0 d2 else rollDayAux fuel y (m + 1) d2

/-- Rolls a day count that exceeds the month length into the following
months, as the JS Date normalization does when a date is built from
out-of-range components. -/
def rollDay (y : Int) (m : Nat) (d : Nat) : Date := rollDayAux d y m d

/-- The setMonth mutator of the JS Date: the month argument may lie
outside the 0-11 range and is folded into the year, after which an
overflowing day of month rolls forward. -/
def setMonthNorm (dt : Date) (m : Int) : Date :=
  rollDay (dt.year + m / 12) ((m % 12).toNat) dt.day

/-- The setFullYear mutator of the JS Date: the year is replaced and an
overflowing day of month (the leap day) rolls forward. -/
def setYearNorm (dt : Date) (y : Int) : Date := rollDay y dt.month dt.day

/-- navigateTime, source lines 226-235: in daily mode the copy of the
anchor has its month stepped by one and the selected day is cleared; in
monthly mode the year is stepped by one and the selected day is left
alone. -/
def navigateTime (st : ViewState) (direction : Direction) : ViewState :=
  let delta : Int := match direction with | .next => 1 | .prev => -1
  match st.viewMode with
  | .daily =>
      { st with
        currentDate := setMonthNorm st.currentDate ((st.currentDate.month : Int) + delta)
        selectedDay := none }
  | .monthly =>
      { st with currentDate := setYearNorm st.currentDate (st.currentDate.year + delta) }

/-! ## Declarative forms used by the theorems -/

/-- Sum of the amounts of a list of transactions. -/
def sumAmounts (l : List Transaction) : Rat := (l.map fun t => t.amount).sum

/-- Sum of the amounts of the income entries of a list. -/
def incomeSum (l : List Transaction) : Rat :=
  sumAmounts (l.filter fun t => decide (t.type = TxType.income))

/-- Sum of the amounts of the expense entries of a list. -/
def expenseSum (l : List Transaction) : Rat :=
  sumAmounts (l.filter fun t => decide (t.type = TxType.expense))

/-- Sum of the income amounts of the transactions dated in 0-based
month i. -/
def monthIncomeSum (l : List Transaction) (i : Nat) : Rat :=
  sumAmounts (l.filter fun t => decide (t.date.month = i ∧ t.type = TxType.income))

/-- Sum of the expense amounts of the transactions dated in 0-based
month i. -/
def monthExpenseSum (l : List Transaction) (i : Nat) : Rat :=
  sumAmounts (l.filter fun t => decide (t.date.month = i ∧ t.type = TxType.expense))

/-- Sum of the income amounts of the transactions dated on day of
month d. -/
def dayIncomeSum (l : List Transaction) (d : Nat) : Rat :=
  sumAmounts (l.filter fun t => decide (t.date.day = d ∧ t.type = TxType.income))

/-- Sum of the expense amounts of the transactions dated on day of
month d. -/
def dayExpenseSum (l : List Transaction) (d : Nat) : Rat :=
  sumAmounts (l.filter fun t => decide (t.date.day = d ∧ t.type = TxType.expense))

/-- The signed step of one navigation action. -/
def dirDelta (direction : Direction) : Int :=
  match direction with
  | .next => 1
  | .prev => -1

/-! ## Sample data used by the witness statements -/

/-- A sample date. -/
def sampleDate : Date := { year := 2024, month := 2, day := 10 }

/-- A sample wallet with no transactions. -/
def sampleWallet1 : WalletData := { id := "w1", name := "Cash", transactions := [] }

/-- A second sample wallet with no transactions. -/
def sampleWallet2 : WalletData := { id := "w2", name := "Bank", transactions := [] }

/-- A sample transaction stored under wallet w1. -/
def sampleTxn : Transaction :=
  { id := "t9", description := "book", amount := 5, type := TxType.expense
    date := sampleDate, category := "General" }

/-- A sample wallet holding one transaction. -/
def sampleWallet3 : WalletData :=
  { id := "w1", name := "Cash", transactions := [sampleTxn] }

/-- A one-wallet application state. -/
def sampleState1 : AppState := { wallets := [sampleWallet1], activeWalletId := some "w1" }

/-- A two-wallet application state with the first wallet active. -/
def sampleState2 : AppState :=
  { wallets := [sampleWallet1, sampleWallet2], activeWalletId := some "w1" }

/-- A sample form draft that passes the form constraints. -/
def sampleForm : FormState :=
  { description := "lunch", amount := some 0, tdate := some sampleDate
    type := TxType.expense, category := "Food" }

/-- The payload the sample form builds when adding with fresh id t1. -/
def samplePayload : Transaction :=
  { id := "t1", description := "lunch", amount := 0, type := TxType.expense
    date := sampleDate, category := "Food" }

/-- The payload the sample form builds when editing transaction t9. -/
def samplePayloadEdit : Transaction :=
  { id := "t9", description := "lunch", amount := 0, type := TxType.expense
    date := sampleDate, category := "Food" }

/-- A sample view state in daily mode with a selected day. -/
def sampleView : ViewState :=
  { viewMode := ViewMode.daily, currentDate := { year := 2024, month := 2, day := 15 }
    selectedDay := some 10 }

/-- A sample view state in monthly mode. -/
def sampleViewMonthly : ViewState :=
  { viewMode := ViewMode.monthly, currentDate := { year := 2024, month := 2, day := 15 }
    selectedDay := some 7 }

/-! ## Theorems -/

/-- C3: in daily mode the filtered set is exactly the transactions of
the same calendar year and month as the anchor, in monthly mode exactly
those of the same calendar year; the display list restricts the
filtered set to the selected day of month exactly when the mode is
daily and a day is selected, and equals the filtered set otherwise. -/
theorem c3_period_filter :
    (∀ (ts : List Transaction) (cd : Date) (t : Transaction),
        t ∈ filteredTransactions ts cd ViewMode.daily ↔
          t ∈ ts ∧ t.date.year = cd.year ∧ t.date.month = cd.month) ∧
    (∀ (ts : List Transaction) (cd : Date) (t : Transaction),
        t ∈ filteredTransactions ts cd ViewMode.monthly ↔
          t ∈ ts ∧ t.date.year = cd.year) ∧
    (∀ (fs : List Transaction) (d : Nat) (t : Transaction),
        t ∈ displayList fs ViewMode.daily (some d) ↔ t ∈ fs ∧ t.date.day = d) ∧
    (∀ (fs : List Transaction) (sel : Option Nat),
        displayList fs ViewMode.monthly sel = fs) ∧
    (∀ (fs : List Transaction) (vm : ViewMode), displayList fs vm none = fs) := by
  refine ⟨?_, ?_, ?_, ?_, ?_⟩
  · intro ts cd t
    simp [filteredTransactions, List.mem_filter, and_assoc]
  · intro ts cd t
    simp [filteredTransactions, List.mem_filter]
  · intro fs d t
    simp [displayList, List.mem_filter]
  · intro fs sel
    rfl
  · intro fs vm
    cases vm <;> rfl

/-- Accumulating the income and expense totals over a list adds the
declarative sums to the starting pair. -/
theorem stats_foldl_eq (l : List Transaction) (p : Rat × Rat) :
    l.foldl
      (fun acc t =>
        match t.type with
        | .income => (acc.1 + t.amount, acc.2)
        | .expense => (acc.1, acc.2 + t.amount)) p
      = (p.1 + incomeSum l, p.2 + expenseSum l) := by
  induction l generalizing p with
  | nil => simp [incomeSum, expenseSum, sumAmounts]
  | cons t ts ih =>
    cases htype : t.type <;>
      simp [htype, ih, incomeSum, expenseSum, sumAmounts, List.filter_cons, add_assoc]

/-- C4: the stats computation returns the sum of the income amounts,
the sum of the expense amounts, and their difference as the balance;
in particular two income entries of 100 and 50 and one expense entry
of 30 yield income 150, expense 30, balance 120. -/
theorem c4_stats_correct :
    (∀ fs : List Transaction,
        (stats fs).income = incomeSum fs ∧
        (stats fs).expense = expenseSum fs ∧
        (stats fs).balance = incomeSum fs - expenseSum fs) ∧
    stats
      [{ id := "t1", description := "salary", amount := 100, type := TxType.income
         date := { year := 2024, month := 2, day := 10 }, category := "Salary" },
       { id := "t2", description := "gift", amount := 50, type := TxType.income
         date := { year := 2024, month := 2, day := 11 }, category := "General" },
       { id := "t3", description := "food", amount := 30, type := TxType.expense
         date := { year := 2024, month := 2, day := 12 }, category := "Food" }]
      = { income := 150, expense := 30, balance := 120 } := by
  constructor
  · intro fs
    simp [stats, stats_foldl_eq]
  · simp [stats, stats_foldl_eq, incomeSum, expenseSum, sumAmounts,
      List.filter_cons, StatsResult.mk.injEq]
    norm_num

/-- C2: the load normalization.  A stored wallet-shaped array (detected
by the transactions field of its first element, hence non-empty) is
returned as-is; a stored legacy transaction array is migrated to a
single wallet named Main Wallet holding exactly those transactions; an
absent, unparsable, non-array or empty stored value yields one empty
wallet named Main Wallet.  The load function is total, so no error
reaches the caller. -/
theorem c2_load_normalizes :
    (∀ (f1 f2 : String) (ws : List WalletData), ws ≠ [] →
        load f1 f2 (Stored.parsed (StoredJson.walletArr ws)) = ws) ∧
    (∀ (f1 f2 : String) (ts : List Transaction),
        load f1 f2 (Stored.parsed (StoredJson.txnArr ts)) =
          [{ id := f1, name := "Main Wallet", transactions := ts }]) ∧
    (∀ f1 f2 : String,
        load f1 f2 Stored.absent =
          [{ id := f2, name := "Main Wallet", transactions := [] }]) ∧
    (∀ f1 f2 : String,
        load f1 f2 Stored.unparsable =
          [{ id := f2, name := "Main Wallet", transactions := [] }]) ∧
    (∀ f1 f2 : String,
        load f1 f2 (Stored.parsed StoredJson.nonArray) =
          [{ id := f2, name := "Main Wallet", transactions := [] }]) ∧
    (∀ f1 f2 : String,
        load f1 f2 (Stored.parsed (StoredJson.walletArr [])) =
          [{ id := f1, name := "Main Wallet", transactions := [] }]) := by
  refine ⟨?_, ?_, ?_, ?_, ?_, ?_⟩
  · intro f1 f2 ws hne
    have hlen : 0 < ws.length := List.length_pos.mpr hne
    simp [load, hlen, List.isEmpty_iff, hne]
  · intro f1 f2 ts
    simp [load]
  · intro f1 f2
    rfl
  · intro f1 f2
    rfl
  · intro f1 f2
    rfl
  · intro f1 f2
    rfl

/-- Accumulating the monthly buckets over a list adds the per-month
declarative sums to every seeded bucket. -/
theorem bump_foldl_eq (ts : List Transaction) (m : Nat → MonthBucket) (i : Nat)
    (hi : i < 12) :
    (ts.foldl bumpBucket m) i =
      { name := (m i).name, income := (m i).income + monthIncomeSum ts i
        expense := (m i).expense + monthExpenseSum ts i } := by
  induction ts generalizing m with
  | nil => simp [monthIncomeSum, monthExpenseSum, sumAmounts]
  | cons t ts ih =>
    rw [List.foldl_cons, ih]
    by_cases hm : t.date.month < 12
    · by_cases heq : t.date.month = i
      · cases htype : t.type <;>
          simp [bumpBucket, hm, hi, heq, htype, monthIncomeSum, monthExpenseSum,
            sumAmounts, List.filter_cons, add_assoc]
      · have heq2 : i ≠ t.date.month := fun h => heq h.symm
        simp [bumpBucket, hm, heq, heq2, monthIncomeSum, monthExpenseSum,
          sumAmounts, List.filter_cons]
    · have hne : t.date.month ≠ i := by omega
      simp [bumpBucket, hm, hne, monthIncomeSum, monthExpenseSum,
        sumAmounts, List.filter_cons]

/-- C5: the monthly series is empty in daily mode, and in monthly mode
consists of exactly twelve buckets in January-to-December order, each
holding the summed income and summed expense of the transactions dated
in that month (a month with no transactions keeps both sums at zero,
the value every bucket is seeded with). -/
theorem c5_monthly_series :
    (∀ fs : List Transaction, monthlyChartData fs ViewMode.daily = []) ∧
    (∀ fs : List Transaction, (monthlyChartData fs ViewMode.monthly).length = 12) ∧
    (∀ fs : List Transaction,
        monthlyChartData fs ViewMode.monthly =
          (List.range 12).map fun i =>
            { name := monthNames.getD i "", income := monthIncomeSum fs i
              expense := monthExpenseSum fs i }) := by
  have key : ∀ fs : List Transaction,
      monthlyChartData fs ViewMode.monthly =
        (List.range 12).map fun i =>
          { name := monthNames.getD i "", income := monthIncomeSum fs i
            expense := monthExpenseSum fs i } := by
    intro fs
    unfold monthlyChartData
    refine List.map_congr_left ?_
    intro i hi
    have hi12 : i < 12 := List.mem_range.mp hi
    rw [bump_foldl_eq fs initDataMap i hi12]
    simp [initDataMap]
  exact ⟨fun fs => rfl, fun fs => by rw [key fs]; simp, key⟩

/-- Folding addition of the amounts over a list equals adding the sum
of the amounts to the accumulator. -/
theorem foldl_add_amount (l : List Transaction) (a : Rat) :
    l.foldl (fun acc c => acc + c.amount) a = a + sumAmounts l := by
  induction l generalizing a with
  | nil => simp [sumAmounts]
  | cons t ts ih => simp [ih, sumAmounts, add_assoc]

/-- The cell the calendar loop builds for a day number carries the
declarative per-day income and expense sums. -/
theorem dayCellFor_eq (fs : List Transaction) (i : Nat) :
    dayCellFor fs i =
      { day := some i, income := dayIncomeSum fs i, expense := dayExpenseSum fs i } := by
  simp only [dayCellFor]
  rw [List.filter_filter, List.filter_filter, foldl_add_amount, foldl_add_amount]
  have hA : fs.filter (fun t => (t.type == TxType.income) && (t.date.day == i)) =
      fs.filter fun t => decide (t.date.day = i ∧ t.type = TxType.income) := by
    apply List.filter_congr
    intro t ht
    by_cases h1 : t.date.day = i <;> by_cases h2 : t.type = TxType.income <;>
      simp [h1, h2]
  have hB : fs.filter (fun t => (t.type == TxType.expense) && (t.date.day == i)) =
      fs.filter fun t => decide (t.date.day = i ∧ t.type = TxType.expense) := by
    apply List.filter_congr
    intro t ht
    by_cases h1 : t.date.day = i <;> by_cases h2 : t.type = TxType.expense <;>
      simp [h1, h2]
  simp [hA, hB, dayIncomeSum, dayExpenseSum]

/-- C6: the calendar grid is absent in monthly mode; in daily mode it
is exactly the run of blank cells, one per weekday index before the
first of the anchor month, followed by the day cells numbered one to
the number of days in that month in order, each carrying the summed
income and expense of the filtered transactions dated on that day of
month. -/
theorem c6_calendar_grid :
    (∀ (fs : List Transaction) (cd : Date),
        calendarData fs cd ViewMode.monthly = none) ∧
    (∀ (fs : List Transaction) (cd : Date),
        calendarData fs cd ViewMode.daily =
          some (List.replicate (firstDayOfMonth cd.year cd.month)
              { day := none, income := 0, expense := 0 } ++
            (List.range (daysInMonth cd.year cd.month)).map fun i =>
              { day := some (i + 1), income := dayIncomeSum fs (i + 1)
                expense := dayExpenseSum fs (i + 1) })) := by
  constructor
  · intro fs cd
    rfl
  · intro fs cd
    simp [calendarData, dayCellFor_eq]

/-- The length of a month is at least twenty-eight days. -/
theorem daysInMonth_ge (y : Int) (m : Nat) : 28 ≤ daysInMonth y m := by
  unfold daysInMonth
  split <;> first | omega | (split <;> omega)

/-- A day count of at most twenty-eight never overflows the month, so
the JS Date normalization leaves the components alone. -/
theorem rollDay_of_le (y : Int) (m : Nat) (d : Nat) (h : d ≤ 28) :
    rollDay y m d = { year := y, month := m, day := d } := by
  unfold rollDay
  cases d with
  | zero => rfl
  | succ n =>
      have hle : n + 1 ≤ daysInMonth y m := le_trans h (daysInMonth_ge y m)
      unfold rollDayAux
      simp [hle]

/-- C7 counterexample: with the anchor at January 31, 2025 in daily
mode, Navigate(next) lands on March 3, 2025 — the JS setMonth call
normalizes the out-of-range February 31 — so the anchor month is not
advanced by exactly one. -/
theorem c7_counterexample :
    (navigateTime
        { viewMode := ViewMode.daily
          currentDate := { year := 2025, month := 0, day := 31 }
          selectedDay := none } Direction.next).currentDate =
      { year := 2025, month := 2, day := 3 } ∧
    ¬ (navigateTime
        { viewMode := ViewMode.daily
          currentDate := { year := 2025, month := 0, day := 31 }
          selectedDay := none } Direction.next).currentDate.month = 1 := by
  decide

/-- C7 (amended): provided the day of month of the anchor is at most 28 (so
that the JS Date normalization cannot roll the day into a following
month), Navigate in daily mode advances the anchor by exactly one
month (carrying across year boundaries) and clears the selected day,
and in monthly mode advances the anchor by exactly one year, keeping
the month and leaving the selected day unchanged. -/
theorem c7_navigate_amended :
    ∀ (st : ViewState) (direction : Direction),
      st.currentDate.day ≤ 28 →
      (st.viewMode = ViewMode.daily →
          (navigateTime st direction).currentDate.year * 12 +
              ((navigateTime st direction).currentDate.month : Int) =
            st.currentDate.year * 12 + st.currentDate.month + dirDelta direction ∧
          (navigateTime st direction).currentDate.day = st.currentDate.day ∧
          (navigateTime st direction).selectedDay = none) ∧
      (st.viewMode = ViewMode.monthly →
          (navigateTime st direction).currentDate.year =
            st.currentDate.year + dirDelta direction ∧
          (navigateTime st direction).currentDate.month = st.currentDate.month ∧
          (navigateTime st direction).currentDate.day = st.currentDate.day ∧
          (navigateTime st direction).selectedDay = st.selectedDay) := by
  intro st direction hday
  obtain ⟨vm, cd, sel⟩ := st
  obtain ⟨cy, cm, cdday⟩ := cd
  simp only at hday
  constructor
  · rintro rfl
    cases direction <;>
      · simp [navigateTime, setMonthNorm, dirDelta, rollDay_of_le _ _ _ hday]
        omega
  · rintro rfl
    cases direction <;>
      simp [navigateTime, setYearNorm, dirDelta, rollDay_of_le _ _ _ hday]

/-- Witness for the amended C7 at concrete inputs: daily mode, March
15, 2024, selected day 10, navigating forward. -/
theorem c7_navigate_amended_witness :
    ((navigateTime sampleView Direction.next).currentDate.year * 12 +
        ((navigateTime sampleView Direction.next).currentDate.month : Int) =
      sampleView.currentDate.year * 12 + sampleView.currentDate.month +
        dirDelta Direction.next ∧
      (navigateTime sampleView Direction.next).currentDate.day =
        sampleView.currentDate.day ∧
      (navigateTime sampleView Direction.next).selectedDay = none) ∧
    ((navigateTime sampleViewMonthly Direction.next).currentDate.year =
        sampleViewMonthly.currentDate.year + dirDelta Direction.next ∧
      (navigateTime sampleViewMonthly Direction.next).currentDate.month =
        sampleViewMonthly.currentDate.month ∧
      (navigateTime sampleViewMonthly Direction.next).currentDate.day =
        sampleViewMonthly.currentDate.day ∧
      (navigateTime sampleViewMonthly Direction.next).selectedDay =
        sampleViewMonthly.selectedDay) :=
  ⟨(c7_navigate_amended sampleView Direction.next (by decide)).1 rfl,
   (c7_navigate_amended sampleViewMonthly Direction.next (by decide)).2 rfl⟩

/-- C8: a submission with an empty description, a missing or
non-numeric amount (which the number input holds as the empty string),
or a missing date is a no-op leaving the wallet collection unchanged,
so no half-built transaction is created; and under the form constraints
every transaction present after a submission either was already stored
or carries the parsed non-negative amount of the form. -/
theorem c8_validation :
    (∀ (fs : FormState) (editingId : Option String) (freshId : String)
        (activeWalletId : Option String) (wallets : List WalletData),
        fs.description = "" ∨ fs.amount = none ∨ fs.tdate = none →
        handleSubmit fs editingId freshId activeWalletId wallets = wallets) ∧
    (∀ (fs : FormState) (editingId : Option String) (freshId aid : String)
        (wallets : List WalletData),
        validForm fs →
        ∀ w ∈ handleSubmit fs editingId freshId (some aid) wallets,
          ∀ t ∈ w.transactions,
            (∃ w0 ∈ wallets, t ∈ w0.transactions) ∨ 0 ≤ t.amount) := by
  constructor
  · rintro fs editingId freshId aid wallets (h | h | h)
    · simp [handleSubmit, h]
    · by_cases hd : fs.description = ""
      · simp [handleSubmit, hd]
      · simp [handleSubmit, hd, h]
    · by_cases hd : fs.description = ""
      · simp [handleSubmit, hd]
      · cases ha : fs.amount <;> simp [handleSubmit, hd, h, ha]
  · rintro fs editingId freshId aid wallets ⟨hdesc, ⟨a, hamt, ha⟩, hdate⟩ w hw t ht
    obtain ⟨d, hd⟩ : ∃ d, fs.tdate = some d := by
      cases hfd : fs.tdate with
      | none => exact absurd hfd hdate
      | some d => exact ⟨d, rfl⟩
    obtain ⟨fdesc, famt, ftd, ftype, fcat⟩ := fs
    simp only at hdesc hamt hd
    subst hamt
    subst hd
    simp only [handleSubmit, if_neg hdesc] at hw
    simp only [submitWallets, List.mem_map] at hw
    obtain ⟨w0, hw0, hweq⟩ := hw
    by_cases hid : w0.id = aid
    · rw [if_pos hid] at hweq
      subst hweq
      simp only at ht
      cases editingId with
      | none =>
          rcases List.mem_append.mp ht with hold | hnew
          · exact Or.inl ⟨w0, hw0, hold⟩
          · refine Or.inr ?_
            rw [List.mem_singleton.mp hnew]
            exact ha
      | some eid =>
          obtain ⟨t0, ht0, hteq⟩ := List.mem_map.mp ht
          by_cases hte : t0.id = eid
          · rw [if_pos hte] at hteq
            refine Or.inr ?_
            rw [← hteq]
            exact ha
          · rw [if_neg hte] at hteq
            exact Or.inl ⟨w0, hw0, hteq ▸ ht0⟩
    · rw [if_neg hid] at hweq
      subst hweq
      exact Or.inl ⟨w0, hw0, ht⟩

/-- Witness for C8 at concrete inputs: the sample form submitted into
the one-wallet sample state. -/
theorem c8_validation_witness :
    (∃ w0 ∈ [sampleWallet1], samplePayload ∈ w0.transactions) ∨
      0 ≤ samplePayload.amount :=
  c8_validation.2 sampleForm none "t1" "w1" [sampleWallet1]
    ⟨by decide, ⟨0, rfl, le_refl 0⟩, by decide⟩
    { id := "w1", name := "Cash", transactions := [samplePayload] }
    (by decide) samplePayload (by decide)

/-- C9: every transaction mutation (add, edit, delete) leaves every
wallet other than the active one unchanged; an edit builds its payload
with the existing editing id, never a fresh one, and replaces the
matching entry of the active wallet positionally, so ids are preserved
pointwise and no duplicate is introduced. -/
theorem c9_frame_and_edit :
    (∀ (payload : Transaction) (editingId : Option String) (aid : String)
        (wallets : List WalletData),
        List.Forall₂ (fun w w2 => w.id ≠ aid → w2 = w) wallets
          (submitWallets payload editingId aid wallets)) ∧
    (∀ (txId : String) (activeWalletId : Option String) (wallets : List WalletData),
        List.Forall₂ (fun w w2 => some w.id ≠ activeWalletId → w2 = w) wallets
          (deleteWallets txId activeWalletId wallets)) ∧
    (∀ (fs : FormState) (a : Rat) (d : Date) (eid freshId aid : String)
        (wallets : List WalletData),
        fs.description ≠ "" → fs.amount = some a → fs.tdate = some d →
        handleSubmit fs (some eid) freshId (some aid) wallets =
          submitWallets
            { id := eid, description := fs.description, amount := a, type := fs.type
              date := d, category := fs.category } (some eid) aid wallets) ∧
    (∀ (payload : Transaction) (eid aid : String) (wallets : List WalletData),
        payload.id = eid →
        List.Forall₂ (fun w w2 =>
            w2.id = w.id ∧ (w.id ≠ aid → w2 = w) ∧
            (w.id = aid →
              List.Forall₂ (fun t t2 =>
                  t2.id = t.id ∧ (t.id ≠ eid → t2 = t) ∧ (t.id = eid → t2 = payload))
                w.transactions w2.transactions))
          wallets (submitWallets payload (some eid) aid wallets)) := by
  refine ⟨?_, ?_, ?_, ?_⟩
  · intro payload editingId aid wallets
    rw [submitWallets, List.forall₂_map_right_iff, List.forall₂_same]
    intro w hw hne
    rw [if_neg hne]
  · intro txId activeWalletId wallets
    rw [deleteWallets, List.forall₂_map_right_iff, List.forall₂_same]
    intro w hw hne
    rw [if_neg hne]
  · intro fs a d eid freshId aid wallets hdesc hamt hdate
    obtain ⟨fdesc, famt, ftd, ftype, fcat⟩ := fs
    simp only at hdesc hamt hdate
    subst hamt
    subst hdate
    simp [handleSubmit, hdesc]
  · intro payload eid aid wallets hpid
    rw [submitWallets, List.forall₂_map_right_iff, List.forall₂_same]
    intro w hw
    by_cases hid : w.id = aid
    · rw [if_pos hid]
      refine ⟨rfl, fun hne => absurd hid hne, fun _ => ?_⟩
      rw [List.forall₂_map_right_iff, List.forall₂_same]
      intro t htmem
      by_cases hte : t.id = eid
      · rw [if_pos hte]
        exact ⟨by rw [hpid, hte], fun hne => absurd hte hne, fun _ => rfl⟩
      · rw [if_neg hte]
        exact ⟨rfl, fun _ => rfl, fun heq => absurd heq hte⟩
    · rw [if_neg hid]
      exact ⟨rfl, fun _ => rfl, fun heq => absurd heq hid⟩

/-- Witness for C9 at concrete inputs: editing transaction t9 of the
sample wallet through the sample form. -/
theorem c9_frame_and_edit_witness :
    (handleSubmit sampleForm (some "t9") "fresh" (some "w1") [sampleWallet3] =
      submitWallets
        { id := "t9", description := sampleForm.description, amount := 0
          type := sampleForm.type, date := sampleDate
          category := sampleForm.category } (some "t9") "w1" [sampleWallet3]) ∧
    List.Forall₂ (fun w w2 =>
        w2.id = w.id ∧ (w.id ≠ "w1" → w2 = w) ∧
        (w.id = "w1" →
          List.Forall₂ (fun t t2 =>
              t2.id = t.id ∧ (t.id ≠ "t9" → t2 = t) ∧
              (t.id = "t9" → t2 = samplePayloadEdit))
            w.transactions w2.transactions))
      [sampleWallet3] (submitWallets samplePayloadEdit (some "t9") "w1" [sampleWallet3]) :=
  ⟨c9_frame_and_edit.2.2.1 sampleForm 0 sampleDate "t9" "fresh" "w1" [sampleWallet3]
      (by decide) rfl rfl,
   c9_frame_and_edit.2.2.2 samplePayloadEdit "t9" "w1" [sampleWallet3] rfl⟩

/-- C10: when the supplied transaction id matches no transaction of
the wallets designated active, both the update path and the delete
path return the wallet collection structurally unchanged. -/
theorem c10_no_match_noop :
    ∀ (payload : Transaction) (eid aid : String) (wallets : List WalletData),
      (∀ w ∈ wallets, w.id = aid → ∀ t ∈ w.transactions, t.id ≠ eid) →
      submitWallets payload (some eid) aid wallets = wallets ∧
      deleteWallets eid (some aid) wallets = wallets := by
  intro payload eid aid wallets h
  constructor
  · rw [submitWallets]
    conv_rhs => rw [← List.map_id wallets]
    apply List.map_congr_left
    intro w hw
    obtain ⟨wid, wname, wtx⟩ := w
    by_cases hid : wid = aid
    · have hmap : (wtx.map fun t => if t.id = eid then payload else t) = wtx := by
        conv_rhs => rw [← List.map_id wtx]
        apply List.map_congr_left
        intro t htmem
        rw [if_neg (h ⟨wid, wname, wtx⟩ hw hid t htmem)]
        rfl
      simp only [hid, if_pos rfl, id_eq]
      simp [hmap]
    · simp [hid]
  · rw [deleteWallets]
    conv_rhs => rw [← List.map_id wallets]
    apply List.map_congr_left
    intro w hw
    obtain ⟨wid, wname, wtx⟩ := w
    by_cases hid : wid = aid
    · have hfil : (wtx.filter fun t => t.id != eid) = wtx := by
        rw [List.filter_eq_self]
        intro t htmem
        exact bne_iff_ne.mpr (h ⟨wid, wname, wtx⟩ hw hid t htmem)
      simp only [hid, if_pos rfl, id_eq]
      simp [hfil]
    · simp [hid]

/-- Witness for C10 at concrete inputs: an id matching nothing in the
sample wallet. -/
theorem c10_no_match_noop_witness :
    submitWallets samplePayload (some "nomatch") "w1" [sampleWallet3] = [sampleWallet3] ∧
    deleteWallets "nomatch" (some "w1") [sampleWallet3] = [sampleWallet3] :=
  c10_no_match_noop samplePayload "nomatch" "w1" [sampleWallet3] (by decide)

/-- Replacing an empty list by a one-element default never yields the
empty list. -/
theorem ite_isEmpty_ne_nil (l : List WalletData) (d : WalletData) :
    (if l.isEmpty then [d] else l) ≠ [] := by
  by_cases h : l.isEmpty
  · simp [h]
  · rw [if_neg h]
    intro hl
    rw [hl] at h
    simp at h

/-- The load result is never the empty collection. -/
theorem load_ne_nil (f1 f2 : String) (s : Stored) : load f1 f2 s ≠ [] :=
  ite_isEmpty_ne_nil _ _

/-- The state right after the load effect satisfies the wallet
invariant. -/
theorem goodState_loaded (f1 f2 : String) (s : Stored)
    (hids : ((load f1 f2 s).map fun w => w.id).Nodup) :
    GoodState (loadedState f1 f2 s) := by
  have hne := load_ne_nil f1 f2 s
  obtain ⟨w, rest, hw⟩ := List.exists_cons_of_ne_nil hne
  refine ⟨?_, ⟨w, ?_, ?_⟩, ?_⟩
  · simpa [loadedState] using hne
  · simp [loadedState, hw]
  · simp [loadedState, hw]
  · simpa [loadedState] using hids

/-- Creating a wallet preserves the wallet invariant when the minted id
is fresh. -/
theorem goodState_create (s : AppState) (name freshId : String)
    (hg : GoodState s) (hfresh : freshId ∉ s.wallets.map fun w => w.id) :
    GoodState (handleCreateWallet s name freshId) := by
  obtain ⟨hne, ⟨w, hwmem, hact⟩, hnd⟩ := hg
  unfold handleCreateWallet
  by_cases ht : name.trim = ""
  · simp only [ht, if_pos rfl]
    exact ⟨hne, ⟨w, hwmem, hact⟩, hnd⟩
  · simp only [ht, if_neg, not_false_eq_true]
    refine ⟨by simp, ⟨⟨freshId, name, []⟩, by simp, rfl⟩, ?_⟩
    simp only [List.map_append, List.map_cons, List.map_nil]
    rw [List.nodup_append]
    exact ⟨hnd, List.nodup_singleton freshId,
      by simpa [List.disjoint_right] using hfresh⟩

/-- Updating the wallet list through an id-preserving map keeps the
wallet invariant. -/
theorem goodState_map (s : AppState) (f : WalletData → WalletData)
    (hid : ∀ w, (f w).id = w.id) (hg : GoodState s) :
    GoodState { wallets := s.wallets.map f, activeWalletId := s.activeWalletId } := by
  obtain ⟨hne, ⟨w, hwmem, hact⟩, hnd⟩ := hg
  refine ⟨by simp [hne], ⟨f w, List.mem_map_of_mem f hwmem, by rw [hid w]; exact hact⟩, ?_⟩
  rw [List.map_map]
  have hcomp : ((fun w => w.id) ∘ f) = fun w : WalletData => w.id :=
    funext fun w => hid w
  rw [hcomp]
  exact hnd

/-- Form submission preserves the wallet invariant. -/
theorem goodState_submit (s : AppState) (fs : FormState) (editingId : Option String)
    (freshId : String) (hg : GoodState s) :
    GoodState (submitState s fs editingId freshId) := by
  obtain ⟨ws, act⟩ := s
  unfold submitState handleSubmit
  by_cases hd : fs.description = ""
  · simpa [hd] using hg
  · cases ha : fs.amount with
    | none => simpa [hd, ha] using hg
    | some a =>
      cases hdt : fs.tdate with
      | none => simpa [hd, ha, hdt] using hg
      | some d =>
        cases act with
        | none => simpa [hd, ha, hdt] using hg
        | some aid =>
          simp only [hd, ha, hdt, if_neg, not_false_eq_true]
          exact goodState_map ⟨ws, some aid⟩ _
            (fun w => by by_cases hw : w.id = aid <;> simp [hw]) hg

/-- Transaction deletion preserves the wallet invariant. -/
theorem goodState_deleteTx (s : AppState) (txId : String) (confirmed : Bool)
    (hg : GoodState s) : GoodState (deleteTxState s txId confirmed) := by
  obtain ⟨ws, act⟩ := s
  unfold deleteTxState deleteWallets
  cases confirmed with
  | false => simpa using hg
  | true =>
      simp only [if_pos]
      exact goodState_map ⟨ws, act⟩ _
        (fun w => by by_cases hw : some w.id = act <;> simp [hw]) hg

/-- Switching to one of the offered wallet ids preserves the wallet
invariant. -/
theorem goodState_select (s : AppState) (walletId : String) (hg : GoodState s)
    (hmem : walletId ∈ s.wallets.map fun w => w.id) :
    GoodState (setActiveWallet s walletId) := by
  obtain ⟨hne, _, hnd⟩ := hg
  obtain ⟨w, hwmem, hwid⟩ := List.mem_map.mp hmem
  exact ⟨hne, ⟨w, hwmem, congrArg some hwid.symm⟩, hnd⟩

/-- A collection of two or more wallets with distinct ids always holds
a wallet whose id differs from any given id. -/
theorem exists_survivor (ws : List WalletData) (h2 : 2 ≤ ws.length)
    (hnd : (ws.map fun w => w.id).Nodup) (walletId : String) :
    ∃ w ∈ ws, w.id ≠ walletId := by
  match ws with
  | [] => simp at h2
  | [w1] => simp at h2
  | w1 :: w2 :: rest =>
    have hne : w1.id ≠ w2.id := by
      simp only [List.map_cons, List.nodup_cons, List.mem_cons] at hnd
      exact fun h => hnd.1 (Or.inl h)
    by_cases h1 : w1.id = walletId
    · refine ⟨w2, by simp, fun h => hne ?_⟩
      rw [h1, h]
    · exact ⟨w1, by simp, h1⟩

/-- If some wallet survives the deletion filter, the post-removal
collection is non-empty. -/
theorem filter_survivor_ne_nil (ws : List WalletData) (walletId : String)
    (h : ∃ w ∈ ws, w.id ≠ walletId) :
    (ws.filter fun w => w.id != walletId) ≠ [] := by
  obtain ⟨w, hmem, hne⟩ := h
  exact List.ne_nil_of_mem (List.mem_filter.mpr ⟨hmem, bne_iff_ne.mpr hne⟩)

/-- Wallet deletion preserves the wallet invariant. -/
theorem goodState_delete (s : AppState) (walletId : String) (confirmed : Bool)
    (hg : GoodState s) : GoodState (handleDeleteWallet s walletId confirmed).1 := by
  obtain ⟨hne, ⟨aw, hawmem, hact⟩, hnd⟩ := hg
  unfold handleDeleteWallet
  by_cases hlen : s.wallets.length ≤ 1
  · simp only [hlen, if_pos rfl]
    exact ⟨hne, ⟨aw, hawmem, hact⟩, hnd⟩
  · cases confirmed with
    | false =>
        simp only [hlen, if_neg, not_false_eq_true, Bool.false_eq_true, if_false]
        exact ⟨hne, ⟨aw, hawmem, hact⟩, hnd⟩
    | true =>
        simp only [hlen, if_neg, not_false_eq_true, if_true]
        have h2 : 2 ≤ s.wallets.length := by omega
        have hfne := filter_survivor_ne_nil s.wallets walletId
          (exists_survivor s.wallets h2 hnd walletId)
        have hndf : ((s.wallets.filter fun w => w.id != walletId).map
            fun w => w.id).Nodup :=
          List.Nodup.sublist (List.Sublist.map _ (List.filter_sublist _)) hnd
        refine ⟨hfne, ?_, hndf⟩
        by_cases hawid : s.activeWalletId = some walletId
        · simp only [hawid, if_pos rfl]
          obtain ⟨w, rest, hw⟩ := List.exists_cons_of_ne_nil hfne
          exact ⟨w, by rw [hw]; simp, by rw [hw]; rfl⟩
        · simp only [hawid, if_neg, not_false_eq_true]
          have haw : aw.id ≠ walletId := by
            intro h
            exact hawid (by rw [hact, h])
          exact ⟨aw, List.mem_filter.mpr ⟨hawmem, bne_iff_ne.mpr haw⟩, hact⟩

/-- Every reachable wallet state satisfies the wallet invariant. -/
theorem reachable_goodState : ∀ s : AppState, Reachable s → GoodState s := by
  intro s h
  induction h with
  | loaded f1 f2 st hids => exact goodState_loaded f1 f2 st hids
  | createW s name freshId h hfresh ih => exact goodState_create s name freshId ih hfresh
  | deleteW s walletId confirmed h ih => exact goodState_delete s walletId confirmed ih
  | selectW s walletId h hmem ih => exact goodState_select s walletId ih hmem
  | submitT s fs editingId freshId h ih => exact goodState_submit s fs editingId freshId ih
  | deleteT s txId confirmed h ih => exact goodState_deleteTx s txId confirmed ih

/-- C1: every reachable state has a non-empty wallet collection whose
active id references a member; deleting while exactly one wallet
remains returns the state unchanged together with the user-visible
rejection; and deleting the active wallet out of two or more leaves
the filtered collection, which is non-empty, with the first remaining
wallet as the new active one. -/
theorem c1_wallet_invariant :
    (∀ s : AppState, Reachable s →
        s.wallets ≠ [] ∧ ∃ w ∈ s.wallets, s.activeWalletId = some w.id) ∧
    (∀ (s : AppState) (walletId : String) (confirmed : Bool),
        s.wallets.length = 1 →
        handleDeleteWallet s walletId confirmed = (s, true)) ∧
    (∀ (s : AppState) (walletId : String),
        GoodState s → 2 ≤ s.wallets.length → s.activeWalletId = some walletId →
        (handleDeleteWallet s walletId true).1.wallets =
            s.wallets.filter (fun w => w.id != walletId) ∧
        (handleDeleteWallet s walletId true).1.wallets ≠ [] ∧
        (handleDeleteWallet s walletId true).1.activeWalletId =
          ((handleDeleteWallet s walletId true).1.wallets.head?.map fun w => w.id)) := by
  refine ⟨?_, ?_, ?_⟩
  · intro s h
    obtain ⟨h1, h2, _⟩ := reachable_goodState s h
    exact ⟨h1, h2⟩
  · intro s walletId confirmed hlen
    unfold handleDeleteWallet
    simp [hlen]
  · intro s walletId hg h2 hact
    obtain ⟨hne, hex, hnd⟩ := hg
    have hnotle : ¬ s.wallets.length ≤ 1 := by omega
    have hstate : handleDeleteWallet s walletId true =
        ({ wallets := s.wallets.filter fun w => w.id != walletId
           activeWalletId := (s.wallets.filter fun w => w.id != walletId).head?.map
             fun w => w.id }, false) := by
      simp [handleDeleteWallet, hnotle, hact]
    rw [hstate]
    exact ⟨rfl,
      filter_survivor_ne_nil s.wallets walletId
        (exists_survivor s.wallets h2 hnd walletId), rfl⟩

/-- Witness for C1 at concrete inputs: the state loaded from an absent
store, a one-wallet state, and a two-wallet state deleting its active
wallet. -/
theorem c1_wallet_invariant_witness :
    ((loadedState "f1" "f2" Stored.absent).wallets ≠ [] ∧
      ∃ w ∈ (loadedState "f1" "f2" Stored.absent).wallets,
        (loadedState "f1" "f2" Stored.absent).activeWalletId = some w.id) ∧
    handleDeleteWallet sampleState1 "w1" false = (sampleState1, true) ∧
    ((handleDeleteWallet sampleState2 "w1" true).1.wallets =
        sampleState2.wallets.filter (fun w => w.id != "w1") ∧
      (handleDeleteWallet sampleState2 "w1" true).1.wallets ≠ [] ∧
      (handleDeleteWallet sampleState2 "w1" true).1.activeWalletId =
        ((handleDeleteWallet sampleState2 "w1" true).1.wallets.head?.map fun w => w.id)) :=
  ⟨c1_wallet_invariant.1 (loadedState "f1" "f2" Stored.absent)
      (Reachable.loaded "f1" "f2" Stored.absent (by decide)),
   c1_wallet_invariant.2.1 sampleState1 "w1" false (by decide),
   c1_wallet_invariant.2.2 sampleState2 "w1"
      ⟨by decide, ⟨sampleWallet1, by decide, by decide⟩, by decide⟩
      (by decide) (by decide)⟩

/-- Witness for C2 at concrete inputs. -/
theorem c2_load_normalizes_witness :
    load "f1" "f2"
        (Stored.parsed (StoredJson.walletArr
          [{ id := "w1", name := "Cash", transactions := [] }])) =
      [{ id := "w1", name := "Cash", transactions := [] }] :=
  c2_load_normalizes.1 "f1" "f2"
    [{ id := "w1", name := "Cash", transactions := [] }] (by decide)

end ExpenseTracker
